import Mathlib

/-!
Verification of the `log` package (a process-wide multi-facility logger).

The Go source (`log.go`) is embedded shallowly: the package-level mutable
globals become the fields of an explicit `LogState` record, every function
becomes a pure state-passing function, and runtime inputs (pid, wall-clock
date/time strings, caller-function names, file-open success, the launch
banner built from application metadata) are collected in an `Env` record.
Mutexes are erased (the embedding is sequential), `fmt.Sprintf` parameter
substitution is modelled by taking the already-substituted message body,
and alert callbacks (arbitrary external functions) are modelled by the
trace of invocations they would receive.
-/

namespace Log

/-- Level of the logging (`type Level int`, log.go:25). -/
abbrev Level := Int

/-- EMERG -- system is unusable (log.go:29). -/
def EMERG : Level := 0

/-- ALERT -- action must be taken immediately. -/
def ALERT : Level := 1

/-- CRIT -- critical conditions. -/
def CRIT : Level := 2

/-- ERR -- error conditions. -/
def ERR : Level := 3

/-- WARNING -- warning conditions. -/
def WARNING : Level := 4

/-- NOTICE -- normal but significant condition. -/
def NOTICE : Level := 5

/-- INFO -- informational. -/
def INFO : Level := 6

/-- TIME -- execution time. -/
def TIME : Level := 7

/-- DEBUG -- debug-level messages. -/
def DEBUG : Level := 8

/-- TRACE1 -- trace 1. -/
def TRACE1 : Level := 9

/-- TRACE2 -- trace 2. -/
def TRACE2 : Level := 10

/-- TRACE3 -- trace 3. -/
def TRACE3 : Level := 11

/-- TRACE4 -- trace 4. -/
def TRACE4 : Level := 12

/-- UNKNOWN -- unknown level (log.go:55). -/
def UNKNOWN : Level := 13

/-- One row of the level table (log.go:58-62). -/
structure logLevelDef where
  code : Level
  name : String
  shortName : String
  deriving DecidableEq

/-- FuncNameMode (log.go:65) is a string type in the source. -/
abbrev FuncNameMode := String

/-- FuncNameModeNone (log.go:69). -/
def FuncNameModeNone : FuncNameMode := "none"

/-- FuncNameModeShort (log.go:71). -/
def FuncNameModeShort : FuncNameMode := "short"

/-- FuncNameModeFull (log.go:73). -/
def FuncNameModeFull : FuncNameMode := "full"

/-- logFuncNameNone (log.go:77). -/
def logFuncNameNone : Nat := 0

/-- logFuncNameShort (log.go:78). -/
def logFuncNameShort : Nat := 1

/-- logFuncNameFull (log.go:79). -/
def logFuncNameFull : Nat := 2

/-- beforeFileBufSize (log.go:83). -/
def beforeFileBufSize : Nat := 500

/-- lastBufSize (log.go:84). -/
def lastBufSize : Nat := 10

/-- StdFacilityName (log.go:88). -/
def StdFacilityName : String := ""

/-- Facility (log.go:91-94). -/
structure Facility where
  name : String
  level : Level
  deriving DecidableEq

/-- The level table (log.go:101-116). -/
def levels : List logLevelDef :=
  [ ⟨EMERG, "EMERG", "EM"⟩,
    ⟨ALERT, "ALERT", "AL"⟩,
    ⟨CRIT, "CRIT", "CR"⟩,
    ⟨ERR, "ERR", "ER"⟩,
    ⟨WARNING, "WARNING", "WA"⟩,
    ⟨NOTICE, "NOTICE", "NO"⟩,
    ⟨INFO, "INFO", "IN"⟩,
    ⟨TIME, "TIME", "TM"⟩,
    ⟨DEBUG, "DEBUG", "DE"⟩,
    ⟨TRACE1, "TRACE1", "T1"⟩,
    ⟨TRACE2, "TRACE2", "T2"⟩,
    ⟨TRACE3, "TRACE3", "T3"⟩,
    ⟨TRACE4, "TRACE4", "T4"⟩,
    ⟨UNKNOWN, "UNKNOWN", "??"⟩ ]

/-- Str2Level (log.go:330-342): linear scan over the table, first match of
the long or the short name wins; `(UNKNOWN, false)` if nothing matches. -/
def Str2Level (levelName : String) : Level × Bool :=
  match levels.find? (fun def_ => levelName = def_.name ∨ levelName = def_.shortName) with
  | some def_ => (def_.code, true)
  | none => (UNKNOWN, false)

/-- GetLogLevelName (log.go:358-360): the source indexes `levels[level]`
directly and would abort on an out-of-range index; `none` models that. -/
def GetLogLevelName (level : Level) : Option (String × String) :=
  if level < 0 then none
  else (levels.get? level.toNat).map fun def_ => (def_.shortName, def_.name)

/-- The long name `levels[level].name`, used by `setLogLevel` for its
messages (log.go:780, 792); every stored facility level is in range. -/
def levelLongName (level : Level) : String :=
  ((if level < 0 then none else levels.get? level.toNat).map
    fun def_ => def_.name).getD ""

/-- Platform end-of-string marker `misc.EOS` appended to every line. -/
def EOS : String := "\n"

/-- The package-level mutable globals of log.go (lines 98-160), gathered in
one record. File-handle state is abstracted to whether a file is open plus
the list of lines written to it; the console sink is the list of lines
mirrored to it; alert subscribers are their registration ids. -/
structure LogState where
  facilities : List Facility
  enabled : Bool
  active : Bool
  firstTime : Bool
  beforeFileBuf : List String
  lastBuf : List String
  logFuncName : Nat
  lastWriteDate : String
  fileNamePattern : String
  fileName : String
  fileOpen : Bool
  fileContent : List String
  console : List String
  maxLen : Int
  alertSubscribers : List Int
  deriving DecidableEq

/-- Runtime inputs consumed by the logger: process id, the formatted date
and time of `now()`, the caller names `misc.GetFuncName` would return,
whether `os.OpenFile` succeeds in `openLogFile`, and the launch banner
text built there from application metadata (log.go:473-482). -/
structure Env where
  pid : Int
  dt : String
  tm : String
  funcNameFull : String
  funcNameShort : String
  openOk : Bool
  banner : String
  deriving DecidableEq

/-- The final text a `logger` call builds (log.go:524-558): level tag,
header, caller tag, max-length truncation, optional redaction, EOS.
`message` stands for the body with `params` already substituted. -/
def loggerText (env : Env) (logFuncName : Nat) (maxLen : Int) (facility : String)
    (level : Level) (replace : Option (String → String)) (message : String) : String :=
  let levelName :=
    if EMERG ≤ level ∧ level < UNKNOWN then
      ((levels.get? level.toNat).map fun def_ => def_.shortName).getD ""
    else "?" ++ toString level ++ "?"
  let funcName :=
    if level = EMERG ∨ logFuncName = logFuncNameFull then " " ++ env.funcNameFull ++ ":"
    else if logFuncName = logFuncNameShort then " " ++ env.funcNameShort ++ ":"
    else ""
  let facTag := if facility ≠ "" then " <" ++ facility ++ ">" else ""
  let text := "[" ++ toString env.pid ++ "] " ++ levelName ++ " " ++ env.dt ++ " "
      ++ env.tm ++ facTag ++ funcName ++ " " ++ message
  let text := if 0 < maxLen ∧ maxLen < (text.length : Int) then text.take maxLen.toNat else text
  let text :=
    match replace with
    | some r => r text
    | none => text
  text ++ EOS

/-- The launch banner line written by `openLogFile` (log.go:473-487): the
metadata text from the environment, max-length truncation, EOS. -/
def openBanner (env : Env) (maxLen : Int) : String :=
  (if 0 < maxLen ∧ maxLen < (env.banner.length : Int) then
      env.banner.take maxLen.toNat else env.banner) ++ EOS

/-- openLogFile (log.go:429-510): close any open file, open the file for
the given date (success given by `env.openOk`), write the launch banner,
drain the pre-open buffer into the file and clear it; on the very first
call also mirror the banner to the console once. Directory creation,
stderr redirection and dump-file removal are pure I/O and not modelled. -/
def openLogFile (env : Env) (st : LogState) (dt : String) : LogState :=
  let st := { st with fileOpen := false }
  let st := { st with fileName := st.fileNamePattern ++ dt, fileOpen := env.openOk }
  let msg := openBanner env st.maxLen
  let st :=
    if st.fileOpen then
      let st := { st with fileContent := st.fileContent ++ [msg] }
      if st.beforeFileBuf.length > 0 then
        { st with fileContent := st.fileContent ++ st.beforeFileBuf, beforeFileBuf := [] }
      else st
    else st
  if st.firstTime then { st with firstTime := false, console := st.console ++ [msg] }
  else st

/-- The persistence step of `logger` (log.go:560-581): pre-open buffer when
no file destination is configured, nothing when the destination is the
"-" sentinel, otherwise rotate if needed and write to the file. -/
def loggerPersist (env : Env) (st : LogState) (dt : String) (text : String) : LogState :=
  if st.active then
    if st.fileNamePattern = "" then
      let ln := st.beforeFileBuf.length
      if ln > beforeFileBufSize then st
      else if ln < beforeFileBufSize then { st with beforeFileBuf := st.beforeFileBuf ++ [text] }
      else { st with beforeFileBuf := st.beforeFileBuf ++ ["..."] }
    else if st.fileNamePattern ≠ "-" then
      let st := if !st.fileOpen ∨ st.lastWriteDate ≠ dt then openLogFile env st dt else st
      if st.fileOpen then { st with fileContent := st.fileContent ++ [text], lastWriteDate := dt }
      else { st with lastWriteDate := "" }
    else st
  else st

/-- logger (log.go:514-589): early exit when disabled, build the text,
persist, then unconditionally push to the ring buffer (evicting the oldest
entry at capacity) and mirror to the console. `withLock` and `stackShift`
only feed the erased mutex and `misc.GetFuncName`. -/
def logger (env : Env) (st : LogState) (withLock : Bool) (stackShift : Nat)
    (facility : String) (level : Level) (replace : Option (String → String))
    (message : String) : LogState :=
  if !st.enabled then st
  else
    let text := loggerText env st.logFuncName st.maxLen facility level replace message
    let st := loggerPersist env st env.dt text
    let st := if st.lastBuf.length ≥ lastBufSize then { st with lastBuf := st.lastBuf.drop 1 } else st
    let st := { st with lastBuf := st.lastBuf ++ [text] }
    { st with console := st.console ++ [text] }

/-- Facility.MessageEx (log.go:799-806): filter by `level <= f.level`,
negate a negative level, then log. -/
def Facility.MessageEx (env : Env) (st : LogState) (f : Facility) (shift : Nat)
    (level : Level) (replace : Option (String → String)) (message : String) : LogState :=
  if level ≤ f.level then
    let level := if level < 0 then -level else level
    logger env st true (shift + 1) f.name level replace message
  else st

/-- Facility.Message (log.go:809-811). -/
def Facility.Message (env : Env) (st : LogState) (f : Facility) (level : Level)
    (message : String) : LogState :=
  Facility.MessageEx env st f 1 level none message

/-- Lookup in the facility registry (`facilities[name]`); the Go map keyed
by the facility name is modelled by first-match search on the name. -/
def lookupFacility (st : LogState) (name : String) : Option Facility :=
  st.facilities.find? fun f => f.name = name

/-- Update the registry entry named `name` (the effect of the pointer write
`f.level = newLevel`, log.go:791). -/
def setFacilityLevel (st : LogState) (name : String) (lvl : Level) : LogState :=
  { st with facilities := st.facilities.map fun f => if f.name = name then ⟨f.name, lvl⟩ else f }

/-- The `switch funcNameMode` at log.go:765-774: `short` and `full` select
their modes, everything else (including `none`) falls to the default. -/
def funcNameModeToInt (funcNameMode : FuncNameMode) : Nat :=
  if funcNameMode = FuncNameModeShort then logFuncNameShort
  else if funcNameMode = FuncNameModeFull then logFuncNameFull
  else logFuncNameNone

/-- Result of `Facility.setLogLevel`: the new state, the returned
`(oldLevel, err)` pair, and the trace of alert-subscriber invocations
`(id, facility, old, new)` (the callbacks themselves are external). -/
structure SetLevelResult where
  st : LogState
  oldLevel : Level
  err : Option String
  alerts : List (Int × String × Level × Level)
  deriving DecidableEq

/-- Facility.setLogLevel (log.go:764-796): set the process-wide caller-tag
mode, parse the level name; on failure emit a WARNING and return an error
with the level unchanged; on success with a different level notify every
alert subscriber, commit the level, and emit an INFO confirmation. -/
def Facility.setLogLevel (env : Env) (st : LogState) (f : Facility)
    (levelName : String) (funcNameMode : FuncNameMode) : SetLevelResult :=
  let st := { st with logFuncName := funcNameModeToInt funcNameMode }
  let oldLevel := f.level
  let parsed := Str2Level levelName
  if parsed.2 = false then
    let msg := "Invalid log level \"" ++ levelName ++ "\", left unchanged \""
        ++ levelLongName oldLevel ++ "\" "
    ⟨logger env st false 0 f.name WARNING none msg, oldLevel, some msg, []⟩
  else if parsed.1 ≠ oldLevel then
    let newLevel := parsed.1
    let alerts := st.alertSubscribers.map fun id => (id, f.name, oldLevel, newLevel)
    let st := setFacilityLevel st f.name newLevel
    let st := logger env st false 0 f.name INFO none
        ("Log level is \"" ++ levelLongName newLevel ++ "\"")
    ⟨st, oldLevel, none, alerts⟩
  else
    ⟨st, oldLevel, none, []⟩

/-- Facility.SetLogLevel (log.go:757-762) is `setLogLevel` under the
(erased) global mutex. -/
def Facility.SetLogLevel (env : Env) (st : LogState) (f : Facility)
    (levelName : String) (funcNameMode : FuncNameMode) : SetLevelResult :=
  Facility.setLogLevel env st f levelName funcNameMode

/-- The level name chosen for one facility in `SetLogLevels` (log.go:687-690):
the per-facility override if present, else the default. -/
def chosenLevelName (levelsMap : List (String × String)) (defaultLevelName : String)
    (name : String) : String :=
  match levelsMap.lookup name with
  | some s => s
  | none => defaultLevelName

/-- The loop body of `SetLogLevels` (log.go:686-695) over a snapshot of the
registry: apply `setLogLevel` facility by facility, returning at the first
error. -/
def setLogLevelsGo (env : Env) (st : LogState) (fs : List Facility)
    (defaultLevelName : String) (levelsMap : List (String × String))
    (logFunc : FuncNameMode) : LogState × Option String :=
  match fs with
  | [] => (st, none)
  | f :: rest =>
    let r := Facility.setLogLevel env st f
        (chosenLevelName levelsMap defaultLevelName f.name) logFunc
    match r.err with
    | some e => (r.st, some e)
    | none => setLogLevelsGo env r.st rest defaultLevelName levelsMap logFunc

/-- SetLogLevels (log.go:682-698): iterate every currently-registered
facility (the Go map iteration order is one permutation; the registry list
order models it). -/
def SetLogLevels (env : Env) (st : LogState) (defaultLevelName : String)
    (levelsMap : List (String × String)) (logFunc : FuncNameMode) :
    LogState × Option String :=
  setLogLevelsGo env st st.facilities defaultLevelName levelsMap logFunc

/-- The standard facility's current level (`stdFacility.level`); `init`
(log.go:168) registers the standard facility before anything else runs, so
the fallback branch is unreachable in any run of the program. -/
def stdFacilityLevel (st : LogState) : Level :=
  ((lookupFacility st StdFacilityName).map fun f => f.level).getD DEBUG

/-- NewFacility (log.go:703-724): `mutex.Lock()` first, then return the
registered facility when the name is present, otherwise create one whose
level is DEBUG for the standard name and the standard facility's current
level for any other name. Go's `sync.Mutex` is not reentrant, and here —
unlike everywhere else in this embedding — the lock state changes the
sequential behavior (see `GetFacility`), so these two functions carry the
mutex state explicitly: `locked` says whether the caller already holds the
global mutex, and `none` models the call blocking forever on `Lock`. -/
def NewFacility (locked : Bool) (st : LogState) (name : String) :
    Option (LogState × Facility) :=
  if locked then none
  else some
    (match lookupFacility st name with
    | some f => (st, f)
    | none =>
      let level := if name ≠ StdFacilityName then stdFacilityLevel st else DEBUG
      let f : Facility := ⟨name, level⟩
      ({ st with facilities := st.facilities ++ [f] }, f))

/-- GetFacility (log.go:727-737): `mutex.Lock()`, lookup, and on a miss a
call to `NewFacility` made while the mutex is still held — the deferred
unlock at log.go:729 runs only on return, so the inner `mutex.Lock()` at
log.go:704 re-acquires a held, non-reentrant mutex and blocks forever. -/
def GetFacility (locked : Bool) (st : LogState) (name : String) :
    Option (LogState × Facility) :=
  if locked then none
  else
    match lookupFacility st name with
    | some f => some (st, f)
    | none => NewFacility true st name

/-- A concrete environment used by the closed witness/counterexample
statements. -/
def env0 : Env :=
  { pid := 1, dt := "2026-10-11", tm := "00:00:00.000", funcNameFull := "pkg.fn",
    funcNameShort := "fn", openOk := true, banner := "banner" }

/-- The initial global state right after `init` (log.go:164-178): logging
enabled and active, the standard facility registered at DEBUG, no file
destination configured yet, all buffers empty. -/
def st0 : LogState :=
  { facilities := [⟨StdFacilityName, DEBUG⟩], enabled := true, active := true,
    firstTime := true, beforeFileBuf := [], lastBuf := [], logFuncName := logFuncNameNone,
    lastWriteDate := "", fileNamePattern := "", fileName := "", fileOpen := false,
    fileContent := [], console := [], maxLen := 0, alertSubscribers := [] }

/-- A pre-open buffer state holding exactly `beforeFileBufSize` real
entries (what 500 emits with no file destination produce from `st0`). -/
def stFull : LogState :=
  { st0 with beforeFileBuf := List.replicate beforeFileBufSize "x" }

/-- The text a message emitted through facility `f` at level `level` (with
no redaction) adds to the sinks: `MessageEx` negates a negative level
before calling `logger` (log.go:801-804). -/
def textOf (env : Env) (st : LogState) (f : Facility) (level : Level) (m : String) : String :=
  loggerText env st.logFuncName st.maxLen f.name (if level < 0 then -level else level) none m

/-- A sequence of `Facility.Message` calls, oldest first. -/
def emitSeq (env : Env) (f : Facility) (level : Level) (st : LogState)
    (msgs : List String) : LogState :=
  msgs.foldl (fun s m => Facility.Message env s f level m) st

/-- The suffix of the last `n` elements of a list. -/
def lastN (n : Nat) (xs : List α) : List α := xs.drop (xs.length - n)

/-! ### Basic preservation lemmas about `openLogFile`, `loggerPersist`, `logger` -/

theorem openLogFile_lastBuf (env : Env) (st : LogState) (dt : String) :
    (openLogFile env st dt).lastBuf = st.lastBuf := by
  simp only [openLogFile]
  repeat' split
  all_goals simp_all [apply_ite LogState.lastBuf]

theorem openLogFile_facilities (env : Env) (st : LogState) (dt : String) :
    (openLogFile env st dt).facilities = st.facilities := by
  simp only [openLogFile]
  repeat' split
  all_goals simp_all [apply_ite LogState.facilities]

theorem openLogFile_enabled (env : Env) (st : LogState) (dt : String) :
    (openLogFile env st dt).enabled = st.enabled := by
  simp only [openLogFile]
  repeat' split
  all_goals simp_all [apply_ite LogState.enabled]

theorem openLogFile_logFuncName (env : Env) (st : LogState) (dt : String) :
    (openLogFile env st dt).logFuncName = st.logFuncName := by
  simp only [openLogFile]
  repeat' split
  all_goals simp_all [apply_ite LogState.logFuncName]

theorem openLogFile_maxLen (env : Env) (st : LogState) (dt : String) :
    (openLogFile env st dt).maxLen = st.maxLen := by
  simp only [openLogFile]
  repeat' split
  all_goals simp_all [apply_ite LogState.maxLen]

theorem openLogFile_active (env : Env) (st : LogState) (dt : String) :
    (openLogFile env st dt).active = st.active := by
  simp only [openLogFile]
  repeat' split
  all_goals simp_all [apply_ite LogState.active]

theorem openLogFile_alertSubscribers (env : Env) (st : LogState) (dt : String) :
    (openLogFile env st dt).alertSubscribers = st.alertSubscribers := by
  simp only [openLogFile]
  repeat' split
  all_goals simp_all [apply_ite LogState.alertSubscribers]

theorem openLogFile_console (env : Env) (st : LogState) (dt : String) :
    (openLogFile env st dt).console
      = st.console ++ (if st.firstTime then [openBanner env st.maxLen] else []) := by
  simp only [openLogFile]
  repeat' split
  all_goals simp_all [apply_ite LogState.console]

theorem loggerPersist_lastBuf (env : Env) (st : LogState) (dt text : String) :
    (loggerPersist env st dt text).lastBuf = st.lastBuf := by
  simp only [loggerPersist]
  repeat' split
  all_goals simp_all [apply_ite LogState.lastBuf, openLogFile_lastBuf]

theorem loggerPersist_facilities (env : Env) (st : LogState) (dt text : String) :
    (loggerPersist env st dt text).facilities = st.facilities := by
  simp only [loggerPersist]
  repeat' split
  all_goals simp_all [apply_ite LogState.facilities, openLogFile_facilities]

theorem loggerPersist_enabled (env : Env) (st : LogState) (dt text : String) :
    (loggerPersist env st dt text).enabled = st.enabled := by
  simp only [loggerPersist]
  repeat' split
  all_goals simp_all [apply_ite LogState.enabled, openLogFile_enabled]

theorem loggerPersist_logFuncName (env : Env) (st : LogState) (dt text : String) :
    (loggerPersist env st dt text).logFuncName = st.logFuncName := by
  simp only [loggerPersist]
  repeat' split
  all_goals simp_all [apply_ite LogState.logFuncName, openLogFile_logFuncName]

theorem loggerPersist_maxLen (env : Env) (st : LogState) (dt text : String) :
    (loggerPersist env st dt text).maxLen = st.maxLen := by
  simp only [loggerPersist]
  repeat' split
  all_goals simp_all [apply_ite LogState.maxLen, openLogFile_maxLen]

theorem loggerPersist_active (env : Env) (st : LogState) (dt text : String) :
    (loggerPersist env st dt text).active = st.active := by
  simp only [loggerPersist]
  repeat' split
  all_goals simp_all [apply_ite LogState.active, openLogFile_active]

theorem loggerPersist_alertSubscribers (env : Env) (st : LogState) (dt text : String) :
    (loggerPersist env st dt text).alertSubscribers = st.alertSubscribers := by
  simp only [loggerPersist]
  repeat' split
  all_goals simp_all [apply_ite LogState.alertSubscribers, openLogFile_alertSubscribers]

theorem loggerPersist_console (env : Env) (st : LogState) (dt text : String) :
    ∃ c : List String, (loggerPersist env st dt text).console = st.console ++ c := by
  by_cases hA : st.active = true
  · by_cases hP : st.fileNamePattern = ""
    · refine ⟨[], ?_⟩
      simp only [loggerPersist, hA, hP, if_true, if_pos]
      repeat' split
      all_goals simp [apply_ite LogState.console]
    · by_cases hD : st.fileNamePattern = "-"
      · exact ⟨[], by simp [loggerPersist, hA, hP, hD]⟩
      · by_cases hR : (!st.fileOpen) = true ∨ st.lastWriteDate ≠ dt
        · refine ⟨if st.firstTime then [openBanner env st.maxLen] else [], ?_⟩
          simp only [loggerPersist, hA, hP, hD, hR, if_true, if_pos, if_neg, ne_eq,
            not_false_iff]
          repeat' split
          all_goals simp_all [apply_ite LogState.console, openLogFile_console]
        · refine ⟨[], ?_⟩
          simp only [loggerPersist, hA, hP, hD, hR, if_true, if_pos, if_neg, ne_eq,
            not_false_iff]
          repeat' split
          all_goals simp_all [apply_ite LogState.console]
  · exact ⟨[], by simp [loggerPersist, hA]⟩

theorem logger_of_not_enabled (env : Env) (st : LogState) (w : Bool) (sh : Nat)
    (fac : String) (lv : Level) (r : Option (String → String)) (m : String)
    (h : st.enabled = false) :
    logger env st w sh fac lv r m = st := by
  simp [logger, h]

theorem logger_lastBuf (env : Env) (st : LogState) (w : Bool) (sh : Nat)
    (fac : String) (lv : Level) (r : Option (String → String)) (m : String)
    (h : st.enabled = true) :
    (logger env st w sh fac lv r m).lastBuf
      = (if st.lastBuf.length ≥ lastBufSize then st.lastBuf.drop 1 else st.lastBuf)
        ++ [loggerText env st.logFuncName st.maxLen fac lv r m] := by
  simp [logger, h, loggerPersist_lastBuf, apply_ite LogState.lastBuf, List.drop_one]

theorem logger_console (env : Env) (st : LogState) (w : Bool) (sh : Nat)
    (fac : String) (lv : Level) (r : Option (String → String)) (m : String)
    (h : st.enabled = true) :
    ∃ c : List String,
      (logger env st w sh fac lv r m).console
        = st.console ++ c ++ [loggerText env st.logFuncName st.maxLen fac lv r m] := by
  obtain ⟨c, hc⟩ := loggerPersist_console env st env.dt
      (loggerText env st.logFuncName st.maxLen fac lv r m)
  refine ⟨c, ?_⟩
  simp [logger, h, hc, apply_ite LogState.console]

theorem logger_facilities (env : Env) (st : LogState) (w : Bool) (sh : Nat)
    (fac : String) (lv : Level) (r : Option (String → String)) (m : String) :
    (logger env st w sh fac lv r m).facilities = st.facilities := by
  by_cases h : st.enabled = true
  · simp [logger, h, loggerPersist_facilities, apply_ite LogState.facilities]
  · simp [logger, h]

theorem logger_enabled (env : Env) (st : LogState) (w : Bool) (sh : Nat)
    (fac : String) (lv : Level) (r : Option (String → String)) (m : String) :
    (logger env st w sh fac lv r m).enabled = st.enabled := by
  by_cases h : st.enabled = true
  · simp [logger, h, loggerPersist_enabled, apply_ite LogState.enabled]
  · simp [logger, h]

theorem logger_logFuncName (env : Env) (st : LogState) (w : Bool) (sh : Nat)
    (fac : String) (lv : Level) (r : Option (String → String)) (m : String) :
    (logger env st w sh fac lv r m).logFuncName = st.logFuncName := by
  by_cases h : st.enabled = true
  · simp [logger, h, loggerPersist_logFuncName, apply_ite LogState.logFuncName]
  · simp [logger, h]

theorem logger_maxLen (env : Env) (st : LogState) (w : Bool) (sh : Nat)
    (fac : String) (lv : Level) (r : Option (String → String)) (m : String) :
    (logger env st w sh fac lv r m).maxLen = st.maxLen := by
  by_cases h : st.enabled = true
  · simp [logger, h, loggerPersist_maxLen, apply_ite LogState.maxLen]
  · simp [logger, h]

theorem logger_alertSubscribers (env : Env) (st : LogState) (w : Bool) (sh : Nat)
    (fac : String) (lv : Level) (r : Option (String → String)) (m : String) :
    (logger env st w sh fac lv r m).alertSubscribers = st.alertSubscribers := by
  by_cases h : st.enabled = true
  · simp [logger, h, loggerPersist_alertSubscribers, apply_ite LogState.alertSubscribers]
  · simp [logger, h]

/-! ### Claim C8: level-table round trip -/

/-- Claim C8: for every recognized long or short level name, `Str2Level`
succeeds with the row's code, and `GetLogLevelName` of that code returns
the pair (short, long) containing the name. -/
theorem Str2Level_GetLogLevelName_round_trip :
    ∀ d ∈ levels,
      Str2Level d.name = (d.code, true)
      ∧ Str2Level d.shortName = (d.code, true)
      ∧ GetLogLevelName d.code = some (d.shortName, d.name) := by decide

/-- Witness for C8 at the DEBUG row. -/
theorem Str2Level_GetLogLevelName_round_trip_witness :
    Str2Level "DEBUG" = (DEBUG, true)
    ∧ Str2Level "DE" = (DEBUG, true)
    ∧ GetLogLevelName DEBUG = some ("DE", "DEBUG") :=
  Str2Level_GetLogLevelName_round_trip ⟨DEBUG, "DEBUG", "DE"⟩ (by decide)

/-! ### Claim C10: setLogLevel always overwrites the caller-tag mode -/

/-- Claim C10: every `setLogLevel` call sets the process-wide caller-tag
mode from its `funcNameMode` argument, for every level name (valid or not)
and every state (including a new level equal to the current one). -/
theorem setLogLevel_sets_logFuncName (env : Env) (st : LogState) (f : Facility)
    (levelName : String) (funcNameMode : FuncNameMode) :
    (Facility.setLogLevel env st f levelName funcNameMode).st.logFuncName
      = funcNameModeToInt funcNameMode := by
  simp only [Facility.setLogLevel]
  split
  · simp [logger_logFuncName]
  · split
    · simp [logger_logFuncName, setFacilityLevel]
    · rfl

/-! ### Claim C1: level filtering in MessageEx -/

/-- Claim C1 counterexample: with facility threshold `EMERG` (0) and level
`-8` (the negative of DEBUG), `abs(level) = 8 > 0`, so the claim says the
message is not emitted; yet the call records it (the ring buffer, empty in
`st0`, gains an entry), because the source compares the SIGNED level with
the threshold before negating. -/
theorem MessageEx_abs_filter_counterexample :
    ¬ ((8 : Int) ≤ EMERG)
    ∧ st0.lastBuf.length = 0
    ∧ (Facility.MessageEx env0 st0 ⟨"f", EMERG⟩ 1 (-8) none "m").lastBuf.length = 1 :=
  ⟨by decide, rfl, rfl⟩

/-- Claim C1 as amended: a `MessageEx` call emits the message (changes the
state, appending to the sinks) iff `level ≤ T` under the signed order —
so a negative level passes every threshold `T ≥ 0` — and only after the
filter is a negative level replaced by its absolute value, which is what
the formatted text (and its level-name display) uses. -/
theorem MessageEx_signed_filter (env : Env) (st : LogState) (f : Facility) (sh : Nat)
    (level : Level) (r : Option (String → String)) (m : String)
    (hEn : st.enabled = true) :
    (¬ level ≤ f.level → Facility.MessageEx env st f sh level r m = st)
    ∧ (level ≤ f.level →
        Facility.MessageEx env st f sh level r m ≠ st
        ∧ ∃ c : List String,
            (Facility.MessageEx env st f sh level r m).console
              = st.console ++ c ++ [loggerText env st.logFuncName st.maxLen f.name
                  (if level < 0 then -level else level) r m]) := by
  constructor
  · intro hgt
    simp [Facility.MessageEx, hgt]
  · intro hle
    have hcall : Facility.MessageEx env st f sh level r m
        = logger env st true (sh + 1) f.name (if level < 0 then -level else level) r m := by
      simp [Facility.MessageEx, hle]
    obtain ⟨c, hc⟩ := logger_console env st true (sh + 1) f.name
      (if level < 0 then -level else level) r m hEn
    constructor
    · intro heq
      have : st.console = st.console ++ c
          ++ [loggerText env st.logFuncName st.maxLen f.name
              (if level < 0 then -level else level) r m] := by
        conv_lhs => rw [← heq, hcall]
        exact hc
      have hlen := congrArg List.length this
      simp at hlen
    · exact ⟨c, by rw [hcall]; exact hc⟩

/-- Witness for C1 (amended): an INFO message on a DEBUG-threshold facility
is emitted. -/
theorem MessageEx_signed_filter_witness :
    Facility.MessageEx env0 st0 ⟨"x", DEBUG⟩ 1 INFO none "m" ≠ st0 :=
  ((MessageEx_signed_filter env0 st0 ⟨"x", DEBUG⟩ 1 INFO none "m" rfl).2 (by decide)).1

/-! ### Claim C2: pre-open buffer capacity -/

theorem logger_beforeFileBuf (env : Env) (st : LogState) (w : Bool) (sh : Nat)
    (fac : String) (lv : Level) (r : Option (String → String)) (m : String)
    (hEn : st.enabled = true) (hAct : st.active = true) (hPat : st.fileNamePattern = "") :
    (logger env st w sh fac lv r m).beforeFileBuf
      = if st.beforeFileBuf.length > beforeFileBufSize then st.beforeFileBuf
        else if st.beforeFileBuf.length < beforeFileBufSize then
          st.beforeFileBuf ++ [loggerText env st.logFuncName st.maxLen fac lv r m]
        else st.beforeFileBuf ++ ["..."] := by
  simp only [logger, hEn, loggerPersist, hAct, hPat, Bool.not_true, if_true, if_pos]
  repeat' split
  all_goals simp_all [apply_ite LogState.beforeFileBuf]

set_option maxRecDepth 10000 in
/-- Claim C2 counterexample: from a pre-open buffer holding exactly 500
real entries, one further emit appends the "..." marker, making the buffer
501 entries long — it does grow past the stated capacity of 500. -/
theorem beforeFileBuf_overflow_counterexample :
    stFull.beforeFileBuf.length = 500
    ∧ (logger env0 stFull true 0 "" INFO none "m").beforeFileBuf.length = 501
    ∧ beforeFileBufSize
        < (logger env0 stFull true 0 "" INFO none "m").beforeFileBuf.length := by
  refine ⟨?_, ?_, ?_⟩
  · rfl
  · rw [logger_beforeFileBuf env0 stFull true 0 "" INFO none "m" rfl rfl rfl]
    rfl
  · rw [logger_beforeFileBuf env0 stFull true 0 "" INFO none "m" rfl rfl rfl]
    decide

/-- Claim C2 as amended: while no file destination is configured, an emit
appends a real entry only below 500 entries; at exactly 500 it appends the
one "..." truncation marker as the 501st and final entry; above 500 it
changes nothing — so the buffer never grows past 501 = capacity + 1. -/
theorem beforeFileBuf_capacity (env : Env) (st : LogState) (w : Bool) (sh : Nat)
    (fac : String) (lv : Level) (r : Option (String → String)) (m : String)
    (hEn : st.enabled = true) (hAct : st.active = true) (hPat : st.fileNamePattern = "") :
    ((logger env st w sh fac lv r m).beforeFileBuf
      = if st.beforeFileBuf.length > beforeFileBufSize then st.beforeFileBuf
        else if st.beforeFileBuf.length < beforeFileBufSize then
          st.beforeFileBuf ++ [loggerText env st.logFuncName st.maxLen fac lv r m]
        else st.beforeFileBuf ++ ["..."])
    ∧ (st.beforeFileBuf.length ≤ beforeFileBufSize + 1 →
        (logger env st w sh fac lv r m).beforeFileBuf.length ≤ beforeFileBufSize + 1) := by
  have hchain := logger_beforeFileBuf env st w sh fac lv r m hEn hAct hPat
  refine ⟨hchain, fun hle => ?_⟩
  rw [hchain]
  split
  · exact hle
  · split <;> simp <;> omega

/-- Witness for C2 (amended) at the empty initial state. -/
theorem beforeFileBuf_capacity_witness :
    (logger env0 st0 true 0 "" INFO none "m").beforeFileBuf.length
      ≤ beforeFileBufSize + 1 :=
  (beforeFileBuf_capacity env0 st0 true 0 "" INFO none "m" rfl rfl rfl).2 (by decide)

/-! ### Claim C4: invalid level name in setLogLevel -/

/-- Claim C4: `setLogLevel` with a level name that does not parse returns
the old level together with the descriptive error, leaves the facility
registry unchanged, and emits a WARNING-level message to that facility
(the last console line is the WARNING-formatted error text). -/
theorem setLogLevel_invalid (env : Env) (st : LogState) (f : Facility)
    (levelName : String) (funcNameMode : FuncNameMode)
    (hBad : (Str2Level levelName).2 = false) (hEn : st.enabled = true) :
    (Facility.setLogLevel env st f levelName funcNameMode).oldLevel = f.level
    ∧ (Facility.setLogLevel env st f levelName funcNameMode).err
        = some ("Invalid log level \"" ++ levelName ++ "\", left unchanged \""
            ++ levelLongName f.level ++ "\" ")
    ∧ (Facility.setLogLevel env st f levelName funcNameMode).st.facilities = st.facilities
    ∧ (Facility.setLogLevel env st f levelName funcNameMode).st.console.getLast?
        = some (loggerText env (funcNameModeToInt funcNameMode) st.maxLen f.name WARNING
            none ("Invalid log level \"" ++ levelName ++ "\", left unchanged \""
              ++ levelLongName f.level ++ "\" ")) := by
  refine ⟨?_, ?_, ?_, ?_⟩
  · simp [Facility.setLogLevel, hBad]
  · simp [Facility.setLogLevel, hBad]
  · simp only [Facility.setLogLevel, hBad, eq_self_iff_true, if_true]
    rw [logger_facilities]
  · simp only [Facility.setLogLevel, hBad, eq_self_iff_true, if_true]
    obtain ⟨c, hc⟩ := logger_console env { st with logFuncName := funcNameModeToInt funcNameMode }
      false 0 f.name WARNING none
      ("Invalid log level \"" ++ levelName ++ "\", left unchanged \""
        ++ levelLongName f.level ++ "\" ") hEn
    rw [hc, List.getLast?_concat]

/-- Witness for C4: setting a bogus level name on the standard facility. -/
theorem setLogLevel_invalid_witness :
    (Facility.setLogLevel env0 st0 ⟨"", DEBUG⟩ "BOGUS" "none").err
      = some "Invalid log level \"BOGUS\", left unchanged \"DEBUG\" " :=
  (setLogLevel_invalid env0 st0 ⟨"", DEBUG⟩ "BOGUS" "none" (by decide) rfl).2.1

/-! ### Claim C5: alert fan-out on level change -/

theorem filter_tuple_map (k : String) (o n : Level) (l : List Int) (id : Int)
    (hnd : l.Nodup) (hid : id ∈ l) :
    ((l.map (fun i => (i, k, o, n))).filter
        (fun a => a = (id, k, o, n))).length = 1 := by
  induction l with
  | nil => cases hid
  | cons x xs ih =>
    rw [List.nodup_cons] at hnd
    rcases List.mem_cons.mp hid with hx | hxs
    · subst hx
      have hnil : (xs.map (fun i => (i, k, o, n))).filter
          (fun a => a = (id, k, o, n)) = [] := by
        rw [List.filter_eq_nil_iff]
        intro a ha
        obtain ⟨i, hi, rfl⟩ := List.mem_map.mp ha
        simp only [decide_eq_true_eq, Prod.mk.injEq, not_and]
        rintro rfl
        exact absurd hi hnd.1
      simp [hnil]
    · have hne : ¬ ((x, k, o, n) = (id, k, o, n)) := by
        simp only [Prod.mk.injEq]
        rintro ⟨rfl, -⟩
        exact hnd.1 hxs
      simp [hne, ih hnd.2 hxs]

/-- Claim C5: setting a facility to its current level is a no-op apart
from the caller-tag mode — no alert fires and nothing is emitted — while
setting it to a different valid level invokes every registered alert
subscriber exactly once with (facility name, old level, new level). -/
theorem setLogLevel_alert_fanout (env : Env) (st : LogState) (f : Facility)
    (levelName : String) (funcNameMode : FuncNameMode) (newLevel : Level)
    (hOk : Str2Level levelName = (newLevel, true)) :
    (newLevel = f.level →
        (Facility.setLogLevel env st f levelName funcNameMode).alerts = []
        ∧ (Facility.setLogLevel env st f levelName funcNameMode).st
            = { st with logFuncName := funcNameModeToInt funcNameMode }
        ∧ (Facility.setLogLevel env st f levelName funcNameMode).err = none)
    ∧ (newLevel ≠ f.level →
        (Facility.setLogLevel env st f levelName funcNameMode).alerts
          = st.alertSubscribers.map (fun id => (id, f.name, f.level, newLevel))
        ∧ (st.alertSubscribers.Nodup → ∀ id ∈ st.alertSubscribers,
            ((Facility.setLogLevel env st f levelName funcNameMode).alerts.filter
                (fun a => a = (id, f.name, f.level, newLevel))).length = 1)) := by
  constructor
  · intro heq
    simp [Facility.setLogLevel, hOk, heq]
  · intro hne
    have halerts : (Facility.setLogLevel env st f levelName funcNameMode).alerts
        = st.alertSubscribers.map (fun id => (id, f.name, f.level, newLevel)) := by
      simp [Facility.setLogLevel, hOk, hne]
    refine ⟨halerts, fun hnd id hid => ?_⟩
    rw [halerts]
    exact filter_tuple_map f.name f.level newLevel st.alertSubscribers id hnd hid

/-- Witness for C5: one registered subscriber, DEBUG changed to INFO. -/
theorem setLogLevel_alert_fanout_witness :
    (Facility.setLogLevel env0 { st0 with alertSubscribers := [7] } ⟨"", DEBUG⟩
        "INFO" "none").alerts = [(7, "", DEBUG, INFO)] :=
  ((setLogLevel_alert_fanout env0 { st0 with alertSubscribers := [7] } ⟨"", DEBUG⟩
      "INFO" "none" INFO (by decide)).2 (by decide)).1

/-! ### Claim C6: lazy facility lookup and creation -/

/-- Claim C6 (code bug): at the concrete failing input — looking up the
unregistered name "worker" on the post-init state, with the global mutex
free — `GetFacility` finds nothing, calls `NewFacility` while still
holding the mutex, and deadlocks (`none`): it never creates and registers
a facility. `NewFacility` called the same way performs exactly the
creation the claim describes (a fresh facility inheriting the standard
facility's DEBUG level), and a direct hit in `GetFacility` returns the
registered standard facility — so the lookup and creation halves of the
claim are each right, but their composition through `GetFacility`'s miss
path is broken by the non-reentrant lock. -/
theorem GetFacility_miss_deadlock :
    lookupFacility st0 "worker" = none
    ∧ GetFacility false st0 "worker" = none
    ∧ NewFacility false st0 "worker"
        = some ({ st0 with facilities := st0.facilities ++ [⟨"worker", DEBUG⟩] },
            (⟨"worker", DEBUG⟩ : Facility))
    ∧ GetFacility false st0 StdFacilityName
        = some (st0, ⟨StdFacilityName, DEBUG⟩) :=
  ⟨rfl, rfl, rfl, rfl⟩

/-! ### Claim C9: ring buffer and console are unconditional sinks -/

/-- Claim C9: every message that passes level filtering is appended to the
ring buffer (evicting the oldest entry at capacity) and mirrored to the
console, for every file-destination state — `st` ranges over all
configurations (no pattern, the "-" sentinel, open or failed file). -/
theorem MessageEx_ring_and_console (env : Env) (st : LogState) (f : Facility) (sh : Nat)
    (level : Level) (r : Option (String → String)) (m : String)
    (hEn : st.enabled = true) (hle : level ≤ f.level) :
    (Facility.MessageEx env st f sh level r m).lastBuf
      = (if st.lastBuf.length ≥ lastBufSize then st.lastBuf.drop 1 else st.lastBuf)
        ++ [loggerText env st.logFuncName st.maxLen f.name
            (if level < 0 then -level else level) r m]
    ∧ ∃ c : List String,
        (Facility.MessageEx env st f sh level r m).console
          = st.console ++ c ++ [loggerText env st.logFuncName st.maxLen f.name
              (if level < 0 then -level else level) r m] := by
  have hcall : Facility.MessageEx env st f sh level r m
      = logger env st true (sh + 1) f.name (if level < 0 then -level else level) r m := by
    simp [Facility.MessageEx, hle]
  rw [hcall]
  exact ⟨logger_lastBuf env st true (sh + 1) f.name _ r m hEn,
    logger_console env st true (sh + 1) f.name _ r m hEn⟩

/-- Witness for C9: an INFO message through the standard facility from the
initial state lands in the ring buffer. -/
theorem MessageEx_ring_and_console_witness :
    (Facility.MessageEx env0 st0 ⟨"", DEBUG⟩ 1 INFO none "hi").lastBuf
      = (if st0.lastBuf.length ≥ lastBufSize then st0.lastBuf.drop 1 else st0.lastBuf)
        ++ [loggerText env0 st0.logFuncName st0.maxLen ""
            (if INFO < 0 then -INFO else INFO) none "hi"] :=
  (MessageEx_ring_and_console env0 st0 ⟨"", DEBUG⟩ 1 INFO none "hi" rfl (by decide)).1

/-! ### Claim C7: SetLogLevels is fail-fast -/

theorem setLogLevel_err_bad (env : Env) (st : LogState) (f : Facility)
    (ln : String) (mode : FuncNameMode) (h : (Str2Level ln).2 = false) :
    (Facility.setLogLevel env st f ln mode).err
      = some ("Invalid log level \"" ++ ln ++ "\", left unchanged \""
          ++ levelLongName f.level ++ "\" ")
    ∧ (Facility.setLogLevel env st f ln mode).st.facilities = st.facilities := by
  constructor
  · simp [Facility.setLogLevel, h]
  · simp only [Facility.setLogLevel, h, eq_self_iff_true, if_true]
    rw [logger_facilities]

theorem setLogLevel_err_ok (env : Env) (st : LogState) (f : Facility)
    (ln : String) (mode : FuncNameMode) (h : (Str2Level ln).2 = true) :
    (Facility.setLogLevel env st f ln mode).err = none := by
  by_cases h2 : (Str2Level ln).1 ≠ f.level <;> simp [Facility.setLogLevel, h, h2]

theorem lookupFacility_setFacilityLevel_ne (st : LogState) (fn : String) (lvl : Level)
    (n : String) (h : ¬ n = fn) :
    lookupFacility (setFacilityLevel st fn lvl) n = lookupFacility st n := by
  simp only [lookupFacility, setFacilityLevel, List.find?_map]
  have hpred : ((fun g : Facility => decide (g.name = n)) ∘
      (fun f : Facility => if f.name = fn then ⟨f.name, lvl⟩ else f))
      = fun f : Facility => decide (f.name = n) := by
    funext f
    by_cases hf : f.name = fn <;> simp [hf]
  rw [hpred]
  cases hfind : st.facilities.find? (fun f => decide (f.name = n)) with
  | none => rfl
  | some g =>
    have hg : g.name = n := by simpa using List.find?_some hfind
    simp [hg, h]

theorem setLogLevel_lookup_ne (env : Env) (st : LogState) (f : Facility)
    (levelName : String) (mode : FuncNameMode) (n : String) (hn : ¬ n = f.name) :
    lookupFacility (Facility.setLogLevel env st f levelName mode).st n
      = lookupFacility st n := by
  by_cases h1 : (Str2Level levelName).2 = false
  · have hfac := (setLogLevel_err_bad env st f levelName mode h1).2
    simp only [lookupFacility, hfac]
  · by_cases h2 : (Str2Level levelName).1 ≠ f.level
    · have hfac : (Facility.setLogLevel env st f levelName mode).st.facilities
          = (setFacilityLevel { st with logFuncName := funcNameModeToInt mode } f.name
              (Str2Level levelName).1).facilities := by
        simp only [Facility.setLogLevel]
        rw [if_neg h1, if_pos h2]
        rw [logger_facilities]
      have hlk := lookupFacility_setFacilityLevel_ne
        { st with logFuncName := funcNameModeToInt mode } f.name
        (Str2Level levelName).1 n hn
      simp only [lookupFacility] at hlk ⊢
      rw [hfac, hlk]
    · have hfac : (Facility.setLogLevel env st f levelName mode).st.facilities
          = st.facilities := by
        simp only [Facility.setLogLevel]
        rw [if_neg h1, if_neg h2]
      simp only [lookupFacility, hfac]

theorem setLogLevelsGo_failFast (env : Env) (d : String)
    (lm : List (String × String)) (mode : FuncNameMode) :
    ∀ (pre : List Facility) (st : LogState) (f : Facility) (post : List Facility),
      (∀ g ∈ pre, (Str2Level (chosenLevelName lm d g.name)).2 = true) →
      (Str2Level (chosenLevelName lm d f.name)).2 = false →
      (setLogLevelsGo env st (pre ++ f :: post) d lm mode).2
          = some ("Invalid log level \"" ++ chosenLevelName lm d f.name
              ++ "\", left unchanged \"" ++ levelLongName f.level ++ "\" ")
      ∧ ∀ n : String, (∀ g ∈ pre, ¬ n = g.name) →
          lookupFacility (setLogLevelsGo env st (pre ++ f :: post) d lm mode).1 n
            = lookupFacility st n := by
  intro pre
  induction pre with
  | nil =>
    intro st f post hpre hf
    obtain ⟨herr, hfac⟩ := setLogLevel_err_bad env st f (chosenLevelName lm d f.name) mode hf
    constructor
    · simp only [List.nil_append, setLogLevelsGo, herr]
    · intro n hn
      simp only [List.nil_append, setLogLevelsGo, herr, lookupFacility, hfac]
  | cons g rest ih =>
    intro st f post hpre hf
    have hg : (Str2Level (chosenLevelName lm d g.name)).2 = true := hpre g (by simp)
    have herr := setLogLevel_err_ok env st g (chosenLevelName lm d g.name) mode hg
    have hstep : setLogLevelsGo env st ((g :: rest) ++ f :: post) d lm mode
        = setLogLevelsGo env
            (Facility.setLogLevel env st g (chosenLevelName lm d g.name) mode).st
            (rest ++ f :: post) d lm mode := by
      simp only [List.cons_append, setLogLevelsGo, herr]
      rfl
    obtain ⟨ih1, ih2⟩ := ih (Facility.setLogLevel env st g (chosenLevelName lm d g.name) mode).st
      f post (fun q hq => hpre q (List.mem_cons_of_mem _ hq)) hf
    rw [hstep]
    refine ⟨ih1, fun n hn => ?_⟩
    rw [ih2 n (fun q hq => hn q (List.mem_cons_of_mem _ hq))]
    exact setLogLevel_lookup_ne env st g (chosenLevelName lm d g.name) mode n (hn g (by simp))

/-- Claim C7: `SetLogLevels` walks the registered facilities with the
per-facility override (else the default), and stops at the first facility
whose chosen level name does not parse: it returns that facility's error
and no facility beyond the successful prefix is updated. -/
theorem SetLogLevels_failFast (env : Env) (st : LogState) (d : String)
    (lm : List (String × String)) (mode : FuncNameMode)
    (pre : List Facility) (f : Facility) (post : List Facility)
    (hsplit : st.facilities = pre ++ f :: post)
    (hpre : ∀ g ∈ pre, (Str2Level (chosenLevelName lm d g.name)).2 = true)
    (hf : (Str2Level (chosenLevelName lm d f.name)).2 = false) :
    (SetLogLevels env st d lm mode).2
        = some ("Invalid log level \"" ++ chosenLevelName lm d f.name
            ++ "\", left unchanged \"" ++ levelLongName f.level ++ "\" ")
    ∧ ∀ n : String, (∀ g ∈ pre, ¬ n = g.name) →
        lookupFacility (SetLogLevels env st d lm mode).1 n = lookupFacility st n := by
  have h := setLogLevelsGo_failFast env d lm mode pre st f post hpre hf
  simp only [SetLogLevels, hsplit]
  exact h

/-- Witness for C7: three facilities, an override that fails to parse on
the second; the error is returned and the third facility is untouched. -/
theorem SetLogLevels_failFast_witness :
    (SetLogLevels env0 { st0 with facilities := [⟨"a", DEBUG⟩, ⟨"b", DEBUG⟩, ⟨"c", DEBUG⟩] }
        "INFO" [("b", "BOGUS")] "none").2
      = some "Invalid log level \"BOGUS\", left unchanged \"DEBUG\" "
    ∧ lookupFacility (SetLogLevels env0
        { st0 with facilities := [⟨"a", DEBUG⟩, ⟨"b", DEBUG⟩, ⟨"c", DEBUG⟩] }
        "INFO" [("b", "BOGUS")] "none").1 "c"
      = lookupFacility { st0 with facilities := [⟨"a", DEBUG⟩, ⟨"b", DEBUG⟩, ⟨"c", DEBUG⟩] } "c" := by
  have h := SetLogLevels_failFast env0
    { st0 with facilities := [⟨"a", DEBUG⟩, ⟨"b", DEBUG⟩, ⟨"c", DEBUG⟩] }
    "INFO" [("b", "BOGUS")] "none" [⟨"a", DEBUG⟩] ⟨"b", DEBUG⟩ [⟨"c", DEBUG⟩]
    rfl (by decide) (by decide)
  exact ⟨h.1, h.2 "c" (by decide)⟩

/-! ### Claim C3: ring buffer capacity and FIFO eviction -/

theorem lastN_of_le (n : Nat) (xs : List α) (h : xs.length ≤ n) : lastN n xs = xs := by
  simp [lastN, Nat.sub_eq_zero_of_le h]

theorem length_lastN_le (n : Nat) (xs : List α) : (lastN n xs).length ≤ n := by
  simp only [lastN, List.length_drop]
  omega

theorem push_eq_lastN (xs : List α) (t : α) (h : xs.length ≤ lastBufSize) :
    (if xs.length ≥ lastBufSize then xs.drop 1 else xs) ++ [t]
      = lastN lastBufSize (xs ++ [t]) := by
  have hsize : lastBufSize = 10 := rfl
  by_cases hlt : xs.length < lastBufSize
  · rw [if_neg (by omega), lastN_of_le]
    simp only [List.length_append, List.length_singleton]
    omega
  · have heq : xs.length = lastBufSize := by omega
    rw [if_pos (by omega)]
    simp only [lastN, List.length_append, List.length_singleton]
    rw [show xs.length + 1 - lastBufSize = 1 from by omega,
      List.drop_append_of_le_length (show 1 ≤ xs.length from by omega)]

theorem lastN_push (xs : List α) (t : α) :
    lastN lastBufSize (lastN lastBufSize xs ++ [t]) = lastN lastBufSize (xs ++ [t]) := by
  have hsize : lastBufSize = 10 := rfl
  by_cases h : xs.length ≤ lastBufSize
  · rw [lastN_of_le lastBufSize xs h]
  · push_neg at h
    have h1 : (xs.drop (xs.length - lastBufSize)).length = lastBufSize := by
      rw [List.length_drop]
      omega
    simp only [lastN, List.length_append, List.length_singleton, List.length_drop]
    rw [show xs.length - (xs.length - lastBufSize) + 1 - lastBufSize = 1 from by omega,
      List.drop_append_of_le_length (show 1 ≤ (xs.drop (xs.length - lastBufSize)).length
        from by rw [List.length_drop]; omega),
      List.drop_drop,
      List.drop_append_of_le_length (show xs.length + 1 - lastBufSize ≤ xs.length
        from by omega)]
    congr 2
    omega

theorem Message_fields (env : Env) (st : LogState) (f : Facility) (lv : Level) (m : String) :
    (Facility.Message env st f lv m).enabled = st.enabled
    ∧ (Facility.Message env st f lv m).logFuncName = st.logFuncName
    ∧ (Facility.Message env st f lv m).maxLen = st.maxLen := by
  simp only [Facility.Message, Facility.MessageEx]
  split
  · exact ⟨logger_enabled _ _ _ _ _ _ _ _, logger_logFuncName _ _ _ _ _ _ _ _,
      logger_maxLen _ _ _ _ _ _ _ _⟩
  · exact ⟨rfl, rfl, rfl⟩

theorem Message_lastBuf (env : Env) (st : LogState) (f : Facility) (lv : Level) (m : String)
    (hEn : st.enabled = true) (hle : lv ≤ f.level) (hbuf : st.lastBuf.length ≤ lastBufSize) :
    (Facility.Message env st f lv m).lastBuf
      = lastN lastBufSize (st.lastBuf ++ [textOf env st f lv m]) := by
  have hcall : Facility.Message env st f lv m
      = logger env st true 2 f.name (if lv < 0 then -lv else lv) none m := by
    simp [Facility.Message, Facility.MessageEx, hle]
  rw [hcall, logger_lastBuf env st true 2 f.name _ none m hEn, push_eq_lastN _ _ hbuf]
  rfl

theorem emitSeq_append (env : Env) (f : Facility) (lv : Level) (st : LogState)
    (ms : List String) (m : String) :
    emitSeq env f lv st (ms ++ [m])
      = Facility.Message env (emitSeq env f lv st ms) f lv m := by
  simp [emitSeq, List.foldl_append]

theorem emitSeq_fields (env : Env) (f : Facility) (lv : Level) (ms : List String) :
    ∀ st : LogState,
      (emitSeq env f lv st ms).enabled = st.enabled
      ∧ (emitSeq env f lv st ms).logFuncName = st.logFuncName
      ∧ (emitSeq env f lv st ms).maxLen = st.maxLen := by
  induction ms with
  | nil => exact fun st => ⟨rfl, rfl, rfl⟩
  | cons m ms ih =>
    intro st
    have hstep : emitSeq env f lv st (m :: ms)
        = emitSeq env f lv (Facility.Message env st f lv m) ms := rfl
    obtain ⟨e1, e2, e3⟩ := ih (Facility.Message env st f lv m)
    obtain ⟨g1, g2, g3⟩ := Message_fields env st f lv m
    exact ⟨by rw [hstep, e1, g1], by rw [hstep, e2, g2], by rw [hstep, e3, g3]⟩

theorem textOf_congr (env : Env) (s1 s2 : LogState) (f : Facility) (lv : Level) (m : String)
    (h1 : s1.logFuncName = s2.logFuncName) (h2 : s1.maxLen = s2.maxLen) :
    textOf env s1 f lv m = textOf env s2 f lv m := by
  simp [textOf, loggerText, h1, h2]

theorem emitSeq_lastBuf (env : Env) (f : Facility) (lv : Level) (ms : List String) :
    ∀ st : LogState, st.enabled = true → lv ≤ f.level → st.lastBuf.length ≤ lastBufSize →
      (emitSeq env f lv st ms).lastBuf
        = lastN lastBufSize (st.lastBuf ++ ms.map (textOf env st f lv)) := by
  induction ms using List.reverseRecOn with
  | nil =>
    intro st hEn hle hbuf
    simpa [emitSeq] using (lastN_of_le lastBufSize st.lastBuf hbuf).symm
  | append_singleton ms m ih =>
    intro st hEn hle hbuf
    rw [emitSeq_append]
    obtain ⟨e1, e2, e3⟩ := emitSeq_fields env f lv ms st
    have hEn2 : (emitSeq env f lv st ms).enabled = true := by rw [e1]; exact hEn
    have hprev := ih st hEn hle hbuf
    have hbuf2 : (emitSeq env f lv st ms).lastBuf.length ≤ lastBufSize := by
      rw [hprev]; exact length_lastN_le _ _
    rw [Message_lastBuf env (emitSeq env f lv st ms) f lv m hEn2 hle hbuf2, hprev]
    rw [textOf_congr env (emitSeq env f lv st ms) st f lv m e2 e3]
    rw [lastN_push, List.append_assoc, List.map_append]
    rfl

theorem string_append_cancel_left (a b c : String) (h : a ++ b = a ++ c) : b = c := by
  have h2 := congrArg String.data h
  simp only [String.data_append] at h2
  exact String.ext (List.append_cancel_left h2)

theorem string_append_cancel_right (a b c : String) (h : b ++ a = c ++ a) : b = c := by
  have h2 := congrArg String.data h
  simp only [String.data_append] at h2
  exact String.ext (List.append_cancel_right h2)

theorem textOf_inj (env : Env) (st : LogState) (f : Facility) (lv : Level)
    (hml : st.maxLen ≤ 0) (a b : String)
    (h : textOf env st f lv a = textOf env st f lv b) : a = b := by
  have hite : ∀ (P : Prop) (inst : Decidable P) (x y : String),
      (if 0 < st.maxLen ∧ P then x else y) = y := by
    intro P inst x y
    apply if_neg
    intro hc
    exact absurd hc.1 (by omega)
  simp only [textOf, loggerText, hite] at h
  exact string_append_cancel_left _ _ _ (string_append_cancel_right _ _ _ h)

/-- Claim C3: the ring buffer never exceeds its capacity of 10 entries,
and eviction is pure FIFO: after 11 distinct emitted messages starting
from an empty buffer, the buffer holds exactly the last 10 texts, the
oldest message's text is absent, and the newest message's text is
present. -/
theorem lastBuf_capacity_fifo (env : Env) (f : Facility) (level : Level) (st : LogState)
    (m0 m10 : String) (mid : List String)
    (hmid : mid.length = lastBufSize - 1)
    (hnd : (m0 :: (mid ++ [m10])).Nodup)
    (hEn : st.enabled = true) (hle : level ≤ f.level) (hbuf : st.lastBuf = [])
    (hml : st.maxLen ≤ 0) :
    (∀ (st2 : LogState) (w : Bool) (sh : Nat) (fac : String) (lv : Level)
        (r : Option (String → String)) (m : String),
        st2.lastBuf.length ≤ lastBufSize →
        (logger env st2 w sh fac lv r m).lastBuf.length ≤ lastBufSize)
    ∧ (emitSeq env f level st (m0 :: (mid ++ [m10]))).lastBuf
        = (mid ++ [m10]).map (textOf env st f level)
    ∧ textOf env st f level m0 ∉ (emitSeq env f level st (m0 :: (mid ++ [m10]))).lastBuf
    ∧ textOf env st f level m10 ∈ (emitSeq env f level st (m0 :: (mid ++ [m10]))).lastBuf := by
  have hfifo : (emitSeq env f level st (m0 :: (mid ++ [m10]))).lastBuf
      = (mid ++ [m10]).map (textOf env st f level) := by
    rw [emitSeq_lastBuf env f level (m0 :: (mid ++ [m10])) st hEn hle
      (by rw [hbuf]; exact Nat.zero_le _), hbuf]
    simp only [List.nil_append, lastN, List.map_cons, List.length_cons, List.length_map,
      List.length_append, List.length_singleton]
    have hdrop : mid.length + (([] : List String).length + 1) + 1 - lastBufSize = 1 := by
      simp only [List.length_nil]
      have h10 : lastBufSize = 10 := rfl
      omega
    rw [hdrop, List.drop_one, List.tail_cons]
  refine ⟨?_, hfifo, ?_, ?_⟩
  · intro st2 w sh fac lv r m hlen
    by_cases hEn2 : st2.enabled = true
    · rw [logger_lastBuf env st2 w sh fac lv r m hEn2]
      simp only [List.length_append, List.length_singleton]
      have h10 : lastBufSize = 10 := rfl
      split
      · simp only [List.length_drop]
        omega
      · omega
    · rw [logger_of_not_enabled env st2 w sh fac lv r m (by
        cases h2 : st2.enabled
        · rfl
        · exact absurd h2 hEn2)]
      exact hlen
  · rw [hfifo]
    intro hmem
    obtain ⟨q, hq, hqe⟩ := List.mem_map.mp hmem
    have hqm : q = m0 := textOf_inj env st f level hml q m0 hqe
    rw [List.nodup_cons] at hnd
    exact hnd.1 (hqm ▸ hq)
  · rw [hfifo]
    exact List.mem_map_of_mem _ (by simp)

/-- Witness for C3: eleven concrete distinct messages from the empty
initial buffer leave exactly the last ten texts. -/
theorem lastBuf_capacity_fifo_witness :
    (emitSeq env0 ⟨"", DEBUG⟩ INFO st0
        ("m00" :: (["m01", "m02", "m03", "m04", "m05", "m06", "m07", "m08", "m09"]
          ++ ["m10"]))).lastBuf
      = (["m01", "m02", "m03", "m04", "m05", "m06", "m07", "m08", "m09"] ++ ["m10"]).map
          (textOf env0 st0 ⟨"", DEBUG⟩ INFO) :=
  (lastBuf_capacity_fifo env0 ⟨"", DEBUG⟩ INFO st0 "m00" "m10"
    ["m01", "m02", "m03", "m04", "m05", "m06", "m07", "m08", "m09"]
    (by decide) (by decide) rfl (by decide) rfl (by decide)).2.1

end Log
